import Mathlib

/-!
Verification development for the StarEditor repository (a small egui scene
editor, files src/editor.rs, src/save.rs, src/main.rs).

Modelling conventions (shallow embedding):
* `f32` values are modelled as exact rationals (`ℚ`); all arithmetic is exact.
* The filesystem is a partial map `String → Option String`; the external RON
  serializer (`ron::ser::to_string` / `ron::de::from_str`) and the external
  image decoder are out-of-scope collaborators (spec §1) and appear as
  function parameters (`enc`, `dec`, `imageLoads`).
* One call of `StarEditor::update` (editor.rs lines 58-267) is modelled as a
  pure function of a `FrameInput` (the egui input events seen that frame) and
  the current `EditorState`, returning `Option EditorState`: `none` models a
  Rust panic (the only panic site is the unchecked index `self.objects[i]`
  in the inspector panel, editor.rs line 89/97).
* A Rust struct-field write becomes a functional record update.
-/

namespace StarEditor

/-- GameObject, editor.rs lines 31-39.  `usize` becomes `Nat`, `[f32; 2]`
becomes `ℚ × ℚ`, `f32` becomes `ℚ`, `Option<String>` becomes `Option String`. -/
structure GameObject where
  id : Nat
  name : String
  position : ℚ × ℚ
  rotation : ℚ
  scale : ℚ × ℚ
  image_path : Option String
  deriving DecidableEq, Repr

/-- The "Add Object" button body, editor.rs lines 66-76: push a fresh object
whose id is the pre-push length, named after that id, with default transform. -/
def add_object (objects : List GameObject) : List GameObject :=
  let id := objects.length
  objects ++ [{ id := id, name := "Object " ++ toString id,
                position := (0, 0), rotation := 0, scale := (1, 1),
                image_path := none }]

/-- save_scene, save.rs lines 5-9.  `enc` stands for the external
`ron::ser::to_string`; on serialization failure nothing is written.  The
write itself is modelled as an always-succeeding update of the filesystem map
(`let _ = fs::write(path, ron_string)` ignores write errors; the round-trip
claim presupposes the write took effect). -/
def save_scene (enc : List GameObject → Option String)
    (fs : String → Option String) (objects : List GameObject) (path : String) :
    String → Option String :=
  match enc objects with
  | some ronString => fun p => if p = path then some ronString else fs p
  | none => fs

/-- load_scene, save.rs lines 11-18.  `dec` stands for the external
`ron::de::from_str::<Vec<GameObject>>`; a missing/unreadable file or a failed
parse both fall through to `Vec::new()`. -/
def load_scene (dec : String → Option (List GameObject))
    (fs : String → Option String) (path : String) : List GameObject :=
  match fs path with
  | some content =>
    match dec content with
    | some objs => objs
    | none => []
  | none => []

/-- The editor state, editor.rs lines 5-14.  The texture cache is modelled by
its key set (the decoded handles play no role in any claim). -/
structure EditorState where
  selected : Option Nat
  objects : List GameObject
  zoom : ℚ
  dragging : Option Nat
  drag_start : Option (ℚ × ℚ)
  view_offset : ℚ × ℚ
  pan_start : Option (ℚ × ℚ)
  image_cache : List String
  deriving DecidableEq, Repr

/-- The `Default for StarEditor` impl, editor.rs lines 16-29. -/
def initState : EditorState :=
  { selected := none, objects := [], zoom := 1, dragging := none,
    drag_start := none, view_offset := (0, 0), pan_start := none,
    image_cache := [] }

/-- An egui input event as far as the editor inspects it: only
`egui::Event::Scroll(delta)` is distinguished (editor.rs lines 124-126). -/
inductive UiEvent where
  | scroll (x : ℚ) (y : ℚ)
  | other
  deriving DecidableEq, Repr

/-- The per-frame input read from egui, modelled from the spec's
rendering/input boundary (§6): pointer state, button transitions reported by
the central-panel response, key-down state for W/A/S/D, scroll events, and
which hierarchy/button widgets reported a click this frame.  `imageLoads`
models success of the external image decoder (`StarEditor::load_image`). -/
structure FrameInput where
  labelClicked : Option Nat
  addClicked : Bool
  saveClicked : Bool
  loadClicked : Bool
  events : List UiEvent
  dragStarted : Bool
  dragReleased : Bool
  pointerPos : Option (ℚ × ℚ)
  secondaryDown : Bool
  keyW : Bool
  keyS : Bool
  keyA : Bool
  keyD : Bool
  imageLoads : String → Bool
  rectLeftTop : ℚ × ℚ

/-- A frame with no user input at all. -/
def noInput : FrameInput :=
  { labelClicked := none, addClicked := false, saveClicked := false,
    loadClicked := false, events := [], dragStarted := false,
    dragReleased := false, pointerPos := none, secondaryDown := false,
    keyW := false, keyS := false, keyA := false, keyD := false,
    imageLoads := fun _ => false, rectLeftTop := (0, 0) }

/-- The left "hierarchy" panel, editor.rs lines 59-84: selectable labels (a
click on label `i`, which exists only for `i < objects.len()`, sets
`selected`), then the Add Object button, then Save Scene (writes the
filesystem, no editor-state change) and Load Scene (wholesale replacement of
`objects` by `load_scene(dec, fs, "scene.ron")`). -/
def hierarchyStep (dec : String → Option (List GameObject))
    (fs : String → Option String) (inp : FrameInput) (s : EditorState) :
    EditorState :=
  let s1 :=
    match inp.labelClicked with
    | some i => if i < s.objects.length then { s with selected := some i } else s
    | none => s
  let s2 := if inp.addClicked then { s1 with objects := add_object s1.objects }
            else s1
  if inp.loadClicked then { s2 with objects := load_scene dec fs "scene.ron" }
  else s2

/-- The right "inspector" panel, editor.rs lines 86-118.  With a selection
`i` the code indexes `self.objects[i]` without a bounds check (line 89): an
out-of-range `i` is a Rust index-out-of-bounds panic, modelled as `none`.
Otherwise: `path = image_path.clone().unwrap_or_default()`, a cache miss
tries the external image decoder and caches on success (lines 91-95), and
line 98 writes `obj.image_path = Some(path)` back into the object.  The
DragValue/text-edit widgets mutate fields only on user edits, which are not
part of the modelled input (the claims concern selection alone). -/
def inspectorStep (inp : FrameInput) (s : EditorState) : Option EditorState :=
  match s.selected with
  | none => some s
  | some i =>
    if h : i < s.objects.length then
      let obj := s.objects[i]
      let path := obj.image_path.getD ""
      let cache :=
        if s.image_cache.contains path then s.image_cache
        else if inp.imageLoads path then path :: s.image_cache
        else s.image_cache
      some { s with
               image_cache := cache,
               objects := s.objects.set i { obj with image_path := some path } }
    else none

/-- Sum of the vertical deltas of this frame's scroll events, editor.rs lines
123-128. -/
def zoomDelta (events : List UiEvent) : ℚ :=
  (events.filterMap fun e =>
    match e with
    | UiEvent.scroll _ y => some y
    | UiEvent.other => none).sum

/-- Rust's `f32::clamp(lo, hi)` on exact rationals. -/
def clampQ (x lo hi : ℚ) : ℚ :=
  if x < lo then lo else if x > hi then hi else x

/-- Screen-space center of an object, editor.rs lines 146-149:
`rect.left_top() + view_offset + position * 10.0 * zoom` componentwise. -/
def objCenter (rectLT vo : ℚ × ℚ) (zoom : ℚ) (obj : GameObject) : ℚ × ℚ :=
  (rectLT.1 + vo.1 + obj.position.1 * 10 * zoom,
   rectLT.2 + vo.2 + obj.position.2 * 10 * zoom)

/-- The unrotated axis-aligned hit test, editor.rs lines 151-159:
`Rect::from_center_size(center, (scale.x * 20 * zoom, scale.y * 20 * zoom))`
contains the pointer (egui's `Rect::contains` is inclusive on both edges). -/
def objHit (rectLT vo : ℚ × ℚ) (zoom : ℚ) (obj : GameObject) (p : ℚ × ℚ) :
    Bool :=
  let c := objCenter rectLT vo zoom obj
  let sx := obj.scale.1 * 20 * zoom
  let sy := obj.scale.2 * 20 * zoom
  decide (c.1 - sx / 2 ≤ p.1) && decide (p.1 ≤ c.1 + sx / 2) &&
  decide (c.2 - sy / 2 ≤ p.2) && decide (p.2 ≤ c.2 + sy / 2)

/-- Does the image-draw `continue` fire for this object, editor.rs lines
217-228: the object has an image path and the cache holds it (only then is a
texture available to draw, whereupon `continue` skips the rest of the loop
body, in particular the key-driven pan block). -/
def imageShortCircuit (obj : GameObject) (cache : List String) : Bool :=
  match obj.image_path with
  | some path => cache.contains path
  | none => false

/-- The key-driven pan block, editor.rs lines 231-245: each held directional
key moves `view_offset` by the fixed step 10 (W: y+10, S: y-10, A: x+10,
D: x-10).  Note this block sits INSIDE the per-object loop. -/
def keysStep (inp : FrameInput) (s : EditorState) : EditorState :=
  let s1 := if inp.keyW
            then { s with view_offset := (s.view_offset.1, s.view_offset.2 + 10) }
            else s
  let s2 := if inp.keyS
            then { s1 with view_offset := (s1.view_offset.1, s1.view_offset.2 - 10) }
            else s1
  let s3 := if inp.keyA
            then { s2 with view_offset := (s2.view_offset.1 + 10, s2.view_offset.2) }
            else s2
  if inp.keyD
  then { s3 with view_offset := (s3.view_offset.1 - 10, s3.view_offset.2) }
  else s3

/-- The object produced by one frame's drag motion, editor.rs lines 170-172:
position moves by `(pointer - anchor) / (10.0 * zoom)` componentwise. -/
def movedObj (obj : GameObject) (anchor pos : ℚ × ℚ) (zoom : ℚ) : GameObject :=
  { obj with position :=
      (obj.position.1 + (pos.1 - anchor.1) / (10 * zoom),
       obj.position.2 + (pos.2 - anchor.2) / (10 * zoom)) }

/-- The drag-start block, editor.rs lines 156-165: on a drag-start frame,
if the pointer is inside the object's unrotated bounding box, object `i`
becomes the dragging AND the selected object and the pointer position is
recorded as the anchor. -/
def dragStartStep (inp : FrameInput) (i : Nat) (obj : GameObject)
    (s : EditorState) : EditorState :=
  if inp.dragStarted then
    match inp.pointerPos with
    | some pos =>
      if objHit inp.rectLeftTop s.view_offset s.zoom obj pos then
        { s with dragging := some i, drag_start := some pos,
                 selected := some i }
      else s
    | none => s
  else s

/-- The drag-continue/release block, editor.rs lines 167-181: if `i` is the
dragging object and both a pointer position and an anchor exist, move the
object and re-anchor; then on release clear the drag state.  `obj` is the
loop's `iter_mut` element for index `i`. -/
def dragContinueStep (inp : FrameInput) (i : Nat) (obj : GameObject)
    (zoom : ℚ) (s : EditorState) : EditorState :=
  if s.dragging = some i then
    let s2a :=
      match inp.pointerPos, s.drag_start with
      | some pos, some start =>
        { s with objects := s.objects.set i (movedObj obj start pos zoom),
                 drag_start := some pos }
      | _, _ => s
    if inp.dragReleased then { s2a with dragging := none, drag_start := none }
    else s2a
  else s

/-- The secondary-button pan block, editor.rs lines 202-215: while the
secondary button is down, accumulate the pointer delta into `view_offset`
and re-anchor `pan_start`; otherwise reset `pan_start`. -/
def panStep (inp : FrameInput) (s : EditorState) : EditorState :=
  if inp.secondaryDown then
    match inp.pointerPos with
    | some current =>
      match s.pan_start with
      | some start =>
        { s with view_offset := (s.view_offset.1 + (current.1 - start.1),
                                 s.view_offset.2 + (current.2 - start.2)),
                 pan_start := some current }
      | none => { s with pan_start := some current }
    | none => s
  else { s with pan_start := none }

/-- One iteration of the central-panel loop `for (i, obj) in
self.objects.iter_mut().enumerate()`, editor.rs lines 145-265, for index `i`:
the bounding box is computed from the CURRENT `view_offset` (earlier
iterations of the same frame may already have panned it); drag start, drag
continue/release, secondary pan, then the image-draw `continue` (lines
217-229) short-circuits past the key-driven pan (lines 231-245).  `zoom` and
`image_cache` are never written inside the loop, so reading them from the
running state is faithful; `obj`'s `image_path` is not written inside the
loop either, so testing the captured `obj` is faithful. -/
def loopBody (inp : FrameInput) (s : EditorState) (i : Nat) : EditorState :=
  match s.objects[i]? with
  | none => s
  | some obj =>
    let s3 := panStep inp
      (dragContinueStep inp i obj s.zoom (dragStartStep inp i obj s))
    if imageShortCircuit obj s3.image_cache then s3 else keysStep inp s3

/-- The central "Scene View" panel, editor.rs lines 121-266: the zoom update
(lines 123-132: sum the scroll deltas; when nonzero add `delta * 0.01` and
clamp to `[0.1, 5.0]`), then the per-object loop.  The loop never changes the
list's length (only `List.set`), so folding over the initial index range is
faithful to `iter_mut().enumerate()`. -/
def centralStep (inp : FrameInput) (s : EditorState) : EditorState :=
  let delta := zoomDelta inp.events
  let s1 := if delta ≠ 0
            then { s with zoom := clampQ (s.zoom + delta * 0.01) 0.1 5 }
            else s
  (List.range s1.objects.length).foldl (loopBody inp) s1

/-- One call of `StarEditor::update`, editor.rs lines 58-267: hierarchy
panel, then inspector panel (its unchecked index is the one panic site,
modelled as `none`), then the central panel. -/
def update (dec : String → Option (List GameObject))
    (fs : String → Option String) (inp : FrameInput) (s : EditorState) :
    Option EditorState :=
  (inspectorStep inp (hierarchyStep dec fs inp s)).map (centralStep inp)

/-- Editor states reachable from startup through panic-free frames, with
arbitrary inputs and arbitrary external filesystem/serializer behavior each
frame. -/
inductive Reachable : EditorState → Prop
  | init : Reachable initState
  | step (dec : String → Option (List GameObject)) (fs : String → Option String)
      (inp : FrameInput) (s s' : EditorState) :
      Reachable s → update dec fs inp s = some s' → Reachable s'

/-- The object the inspector writes back for a selected object, editor.rs
lines 89 and 98: `image_path` is coerced from `None` to `Some("")` (and from
`Some(p)` to `Some(p)`); no other field is touched by selection alone. -/
def inspectObj (obj : GameObject) : GameObject :=
  { obj with image_path := some (obj.image_path.getD "") }

/-- Net horizontal key-pan contribution of ONE loop iteration, editor.rs
lines 239-244: A adds 10, D subtracts 10. -/
def kx (inp : FrameInput) : ℚ :=
  (if inp.keyA then 10 else 0) - (if inp.keyD then 10 else 0)

/-- Net vertical key-pan contribution of ONE loop iteration, editor.rs lines
233-238: W adds 10, S subtracts 10. -/
def ky (inp : FrameInput) : ℚ :=
  (if inp.keyW then 10 else 0) - (if inp.keyS then 10 else 0)

/-- The objects whose loop iteration actually reaches the key-pan block,
i.e. is not short-circuited by the image-draw `continue`. -/
def activeCount (objects : List GameObject) (cache : List String) : Nat :=
  (objects.filter fun o => !(imageShortCircuit o cache)).length

/-- Does the hit test of editor.rs lines 146-159 succeed for index `j` of
state `s` at pointer `p`, with the panel origin at `rectLT`? -/
def hitAt (rectLT : ℚ × ℚ) (s : EditorState) (p : ℚ × ℚ) (j : Nat) : Bool :=
  match s.objects[j]? with
  | some o => objHit rectLT s.view_offset s.zoom o p
  | none => false

/-- The state right after the drag-start block fired for index `h` with
pointer `p`. -/
def hitState (s : EditorState) (h : Nat) (p : ℚ × ℚ) : EditorState :=
  { s with dragging := some h, selected := some h, drag_start := some p }

/-! Concrete external collaborators and scenario states used by witnesses. -/

/-- A filesystem with no readable files. -/
def fs0 : String → Option String := fun _ => none

/-- A deserializer that rejects every string. -/
def dec0 : String → Option (List GameObject) := fun _ => none

/-- A one-object scene (the result of one Add Object click on the empty
scene). -/
def objsOne : List GameObject := add_object []

/-- A serializer succeeding on every list with output "ron". -/
def enc1 : List GameObject → Option String := fun _ => some "ron"

/-- A deserializer mapping "ron" back to `objsOne`. -/
def dec1 : String → Option (List GameObject) :=
  fun s => if s = "ron" then some objsOne else none

/-- A two-object scene (two Add Object clicks on the empty scene). -/
def objsTwo : List GameObject := add_object objsOne

/-- A frame in which only the Add Object button was clicked. -/
def addInp : FrameInput := { noInput with addClicked := true }

/-- A frame in which only the Load Scene button was clicked. -/
def loadInp : FrameInput := { noInput with loadClicked := true }

/-- A frame whose only input is a pointer at `p` with the primary button
still held from an earlier drag start. -/
def dragInp (p : ℚ × ℚ) : FrameInput := { noInput with pointerPos := some p }

/-- A drag-start frame: the central-panel response reports `drag_started`
with the pointer at `p`, the panel's origin being `rect`. -/
def hitInp (rect p : ℚ × ℚ) : FrameInput :=
  { noInput with dragStarted := true, pointerPos := some p,
                 rectLeftTop := rect }

/-- A frame whose only input is one scroll event with vertical delta 2. -/
def scrollInp : FrameInput :=
  { noInput with events := [UiEvent.scroll 0 2] }

/-- A frame whose only input is a held W key. -/
def keyWInp : FrameInput := { noInput with keyW := true }

/-- A state with one object which is selected in the hierarchy. -/
def selState : EditorState :=
  { initState with objects := objsOne, selected := some 0 }

/-- A state with two (default, overlapping) objects and no interaction
under way. -/
def twoState : EditorState := { initState with objects := objsTwo }

/-- A state in the middle of dragging object 0 of a one-object scene, with
the anchor at the origin. -/
def dragState : EditorState :=
  { initState with objects := objsOne, selected := some 0,
                   dragging := some 0,
                   drag_start := some ((0 : ℚ), (0 : ℚ)) }

/-- The state the zoom witness frame produces. -/
def scrollOutState : EditorState :=
  { initState with
      zoom := clampQ (initState.zoom + zoomDelta scrollInp.events * 0.01) 0.1 5 }

/-- The object one Add Object click creates on the empty scene. -/
def obj0 : GameObject :=
  { id := 0, name := "Object 0", position := (0, 0), rotation := 0,
    scale := (1, 1), image_path := none }

/-- The object a second Add Object click creates. -/
def obj1 : GameObject :=
  { id := 1, name := "Object 1", position := (0, 0), rotation := 0,
    scale := (1, 1), image_path := none }

/-- A two-object scene whose object 1 is both selected and dragging. -/
def c9State : EditorState :=
  { initState with objects := objsTwo, selected := some 1,
                   dragging := some 1 }

/-- The state one no-input frame produces from `c9State` (the inspector
rewrites the selected object's `image_path`). -/
def c9OutState : EditorState :=
  { c9State with objects := c9State.objects.set 1 (inspectObj obj1) }

/-! ## C1: save/load round trip -/

/-- C1: for every non-empty object list, saving the scene to a path and then
loading that path returns a structurally equal list (same count, fields and
order), given the external serializer's contract on that list (`enc` produced
a string, `dec` parses that string back to the same list) and that the
ignored-error `fs::write` took effect (built into the filesystem model). -/
theorem c1_save_load_round_trip
    (enc : List GameObject → Option String)
    (dec : String → Option (List GameObject))
    (fs : String → Option String) (objects : List GameObject) (path : String)
    (ronString : String)
    (_hne : objects ≠ []) (henc : enc objects = some ronString)
    (hdec : dec ronString = some objects) :
    load_scene dec (save_scene enc fs objects path) path = objects := by
  simp [save_scene, load_scene, henc, hdec]

/-- Witness for C1 at a concrete one-object scene and a concrete
serializer/deserializer pair. -/
theorem c1_witness :
    load_scene dec1 (save_scene enc1 fs0 objsOne "scene.ron") "scene.ron" =
      objsOne :=
  c1_save_load_round_trip enc1 dec1 fs0 objsOne "scene.ron" "ron"
    (by simp [objsOne, add_object]) rfl (by simp [dec1])

/-! ## C2: Add Object appends a defaulted object -/

/-- C2: an Add Object click appends exactly one object whose id equals the
pre-call count, named "Object {index}", at position (0,0), rotation 0, scale
(1,1), without an image path; every existing object is untouched; and the
hierarchy panel applies exactly this append to the editor state. -/
theorem c2_add_object_appends_default (objects : List GameObject) :
    (add_object objects).length = objects.length + 1 ∧
    (add_object objects)[objects.length]? =
      some { id := objects.length,
             name := "Object " ++ toString objects.length,
             position := (0, 0), rotation := 0, scale := (1, 1),
             image_path := none } ∧
    (∀ j, j < objects.length → (add_object objects)[j]? = objects[j]?) ∧
    (∀ dec fs s, s.objects = objects →
      hierarchyStep dec fs addInp s = { s with objects := add_object objects }) := by
  refine ⟨by simp [add_object], ?_, ?_, ?_⟩
  · simp [add_object]
  · intro j hj
    simp [add_object, List.getElem?_append, hj]
  · intro dec fs s hs
    simp [hierarchyStep, addInp, noInput, hs]

/-- Witness for C2 at the empty scene and at the one-object scene. -/
theorem c2_witness :
    (add_object objsOne).length = objsOne.length + 1 ∧
    (add_object objsOne)[objsOne.length]? =
      some { id := objsOne.length,
             name := "Object " ++ toString objsOne.length,
             position := (0, 0), rotation := 0, scale := (1, 1),
             image_path := none } ∧
    (add_object objsOne)[0]? = objsOne[0]? ∧
    hierarchyStep dec0 fs0 addInp selState =
      { selState with objects := add_object objsOne } :=
  ⟨(c2_add_object_appends_default objsOne).1,
   (c2_add_object_appends_default objsOne).2.1,
   (c2_add_object_appends_default objsOne).2.2.1 0 (by simp [objsOne, add_object]),
   (c2_add_object_appends_default objsOne).2.2.2 dec0 fs0 selState rfl⟩

/-! ## C3: load_scene never signals an error -/

/-- C3: for every path, load_scene returns a plain list and never an error: a
missing/unreadable file yields the empty list, undecodable content yields the
empty list, and decodable content yields exactly the decoded list. -/
theorem c3_load_scene_error_free
    (dec : String → Option (List GameObject))
    (fs : String → Option String) (path : String) :
    (fs path = none → load_scene dec fs path = []) ∧
    (∀ content, fs path = some content → dec content = none →
      load_scene dec fs path = []) ∧
    (∀ content objs, fs path = some content → dec content = some objs →
      load_scene dec fs path = objs) := by
  refine ⟨fun h => by simp [load_scene, h], ?_, ?_⟩
  · intro content h hdec
    simp [load_scene, h, hdec]
  · intro content objs h hdec
    simp [load_scene, h, hdec]

/-- Witness for C3: a nonexistent path loads as the empty list, garbage
content loads as the empty list, and well-formed content loads as its
decoded object list. -/
theorem c3_witness :
    load_scene dec0 fs0 "scene.ron" = [] ∧
    load_scene dec0 (fun _ => some "garbage") "scene.ron" = [] ∧
    load_scene dec1 (fun _ => some "ron") "scene.ron" = objsOne :=
  ⟨(c3_load_scene_error_free dec0 fs0 "scene.ron").1 rfl,
   (c3_load_scene_error_free dec0 (fun _ => some "garbage") "scene.ron").2.1
     "garbage" rfl rfl,
   (c3_load_scene_error_free dec1 (fun _ => some "ron") "scene.ron").2.2
     "ron" objsOne rfl (by simp [dec1])⟩

/-! ## C8: Load Scene with a live selection panics in the inspector -/

/-- C8 (failing input): with one object selected, clicking Load Scene while
scene.ron is missing replaces `objects` by the empty list, and the inspector
then evaluates `self.objects[0]` on an empty vector in the same frame — a
Rust index-out-of-bounds panic (modelled as `none`), contradicting the
spec's "the process never terminates due to a data error". -/
theorem c8_load_panics_with_selection :
    update dec0 fs0 loadInp selState = none := by
  simp [update, hierarchyStep, inspectorStep, load_scene, loadInp, noInput,
        selState, fs0, dec0]

/-! ## Helper lemmas about the frame pieces -/

lemma pan_none_eq (s : EditorState) (h : s.pan_start = none) :
    { s with pan_start := none } = s := by
  cases s
  simp_all

lemma hierarchyStep_noop (dec : String → Option (List GameObject))
    (fs : String → Option String) (inp : FrameInput) (s : EditorState)
    (h1 : inp.labelClicked = none) (h2 : inp.addClicked = false)
    (h3 : inp.loadClicked = false) : hierarchyStep dec fs inp s = s := by
  simp [hierarchyStep, h1, h2, h3]

lemma inspectorStep_none (inp : FrameInput) (s : EditorState)
    (h : s.selected = none) : inspectorStep inp s = some s := by
  simp [inspectorStep, h]

lemma inspectorStep_some (inp : FrameInput) (s : EditorState) (i : Nat)
    (obj : GameObject) (hsel : s.selected = some i)
    (hobj : s.objects[i]? = some obj)
    (hload : ∀ pa, inp.imageLoads pa = false) :
    inspectorStep inp s =
      some { s with objects := s.objects.set i (inspectObj obj) } := by
  obtain ⟨hi, hv⟩ := List.getElem?_eq_some.mp hobj
  simp [inspectorStep, hsel, hi, hv, hload, inspectObj]

lemma dragStartStep_noStart (inp : FrameInput) (i : Nat) (obj : GameObject)
    (s : EditorState) (h : inp.dragStarted = false) :
    dragStartStep inp i obj s = s := by
  simp [dragStartStep, h]

lemma dragStartStep_miss (inp : FrameInput) (i : Nat) (obj : GameObject)
    (s : EditorState) (p : ℚ × ℚ) (hp : inp.pointerPos = some p)
    (hmiss : objHit inp.rectLeftTop s.view_offset s.zoom obj p = false) :
    dragStartStep inp i obj s = s := by
  simp [dragStartStep, hp, hmiss]

lemma dragStartStep_hit (inp : FrameInput) (i : Nat) (obj : GameObject)
    (s : EditorState) (p : ℚ × ℚ) (hst : inp.dragStarted = true)
    (hp : inp.pointerPos = some p)
    (hhit : objHit inp.rectLeftTop s.view_offset s.zoom obj p = true) :
    dragStartStep inp i obj s =
      { s with dragging := some i, drag_start := some p,
               selected := some i } := by
  simp [dragStartStep, hst, hp, hhit]

lemma dragContinueStep_ne (inp : FrameInput) (i : Nat) (obj : GameObject)
    (zoom : ℚ) (s : EditorState) (h : ¬ s.dragging = some i) :
    dragContinueStep inp i obj zoom s = s := by
  simp [dragContinueStep, h]

lemma dragContinueStep_noPtr (inp : FrameInput) (i : Nat) (obj : GameObject)
    (zoom : ℚ) (s : EditorState) (hp : inp.pointerPos = none)
    (hr : inp.dragReleased = false) :
    dragContinueStep inp i obj zoom s = s := by
  simp [dragContinueStep, hp, hr]

lemma dragContinueStep_move (inp : FrameInput) (i : Nat) (obj : GameObject)
    (zoom : ℚ) (s : EditorState) (p a : ℚ × ℚ)
    (hd : s.dragging = some i) (hp : inp.pointerPos = some p)
    (ha : s.drag_start = some a) (hr : inp.dragReleased = false) :
    dragContinueStep inp i obj zoom s =
      { s with objects := s.objects.set i (movedObj obj a p zoom),
               drag_start := some p } := by
  simp [dragContinueStep, hd, hp, ha, hr]

lemma panStep_noSec (inp : FrameInput) (s : EditorState)
    (h : inp.secondaryDown = false) :
    panStep inp s = { s with pan_start := none } := by
  simp [panStep, h]

lemma keysStep_none (inp : FrameInput) (s : EditorState)
    (hW : inp.keyW = false) (hS : inp.keyS = false)
    (hA : inp.keyA = false) (hD : inp.keyD = false) :
    keysStep inp s = s := by
  simp [keysStep, hW, hS, hA, hD]

lemma keysStep_delta (inp : FrameInput) (s : EditorState) :
    keysStep inp s =
      { s with view_offset := (s.view_offset.1 + kx inp,
                               s.view_offset.2 + ky inp) } := by
  cases s
  cases hW : inp.keyW <;> cases hS : inp.keyS <;> cases hA : inp.keyA <;>
    cases hD : inp.keyD <;>
    simp [keysStep, kx, ky, hW, hS, hA, hD] <;> (try constructor) <;> ring

lemma list_set_self {α : Type} (l : List α) (i : Nat) (a : α)
    (h : l[i]? = some a) : l.set i a = l := by
  obtain ⟨hi, hv⟩ := List.getElem?_eq_some.mp h
  subst hv
  apply List.ext_getElem
  · simp
  · intro n h1 h2
    rcases eq_or_ne i n with rfl | hne
    · simp
    · simp [List.getElem_set_of_ne hne]

lemma movedObj_self (obj : GameObject) (p : ℚ × ℚ) (z : ℚ) :
    movedObj obj p p z = obj := by
  simp [movedObj]

lemma dragStartStep_pres (inp : FrameInput) (i : Nat) (obj : GameObject)
    (s : EditorState) :
    (dragStartStep inp i obj s).objects = s.objects ∧
    (dragStartStep inp i obj s).zoom = s.zoom ∧
    (dragStartStep inp i obj s).image_cache = s.image_cache ∧
    (dragStartStep inp i obj s).view_offset = s.view_offset ∧
    (dragStartStep inp i obj s).pan_start = s.pan_start := by
  unfold dragStartStep
  repeat' split <;> (try simp)

lemma dragContinueStep_pres (inp : FrameInput) (i : Nat) (obj : GameObject)
    (z : ℚ) (s : EditorState) :
    (dragContinueStep inp i obj z s).zoom = s.zoom ∧
    (dragContinueStep inp i obj z s).image_cache = s.image_cache ∧
    (dragContinueStep inp i obj z s).view_offset = s.view_offset ∧
    (dragContinueStep inp i obj z s).pan_start = s.pan_start ∧
    (dragContinueStep inp i obj z s).selected = s.selected ∧
    (dragContinueStep inp i obj z s).objects.length = s.objects.length := by
  unfold dragContinueStep
  repeat' split <;> (try simp)

lemma panStep_pres (inp : FrameInput) (s : EditorState) :
    (panStep inp s).objects = s.objects ∧
    (panStep inp s).zoom = s.zoom ∧
    (panStep inp s).image_cache = s.image_cache ∧
    (panStep inp s).selected = s.selected ∧
    (panStep inp s).dragging = s.dragging ∧
    (panStep inp s).drag_start = s.drag_start := by
  unfold panStep
  repeat' split <;> (try simp)

lemma keysStep_pres (inp : FrameInput) (s : EditorState) :
    (keysStep inp s).objects = s.objects ∧
    (keysStep inp s).zoom = s.zoom ∧
    (keysStep inp s).image_cache = s.image_cache ∧
    (keysStep inp s).selected = s.selected ∧
    (keysStep inp s).dragging = s.dragging ∧
    (keysStep inp s).drag_start = s.drag_start ∧
    (keysStep inp s).pan_start = s.pan_start := by
  unfold keysStep
  repeat' split <;> (try simp)

lemma loopBody_pres (inp : FrameInput) (s : EditorState) (i : Nat) :
    (loopBody inp s i).zoom = s.zoom ∧
    (loopBody inp s i).image_cache = s.image_cache ∧
    (loopBody inp s i).objects.length = s.objects.length := by
  cases hobj : s.objects[i]? with
  | none => simp [loopBody, hobj]
  | some obj =>
    simp only [loopBody, hobj]
    obtain ⟨d1, d2, d3, d4, d5⟩ := dragStartStep_pres inp i obj s
    obtain ⟨c1, c2, c3, c4, c5, c6⟩ :=
      dragContinueStep_pres inp i obj s.zoom (dragStartStep inp i obj s)
    obtain ⟨p1, p2, p3, p4, p5, p6⟩ := panStep_pres inp
      (dragContinueStep inp i obj s.zoom (dragStartStep inp i obj s))
    obtain ⟨k1, k2, k3, k4, k5, k6, k7⟩ := keysStep_pres inp
      (panStep inp (dragContinueStep inp i obj s.zoom (dragStartStep inp i obj s)))
    split
    · constructor
      · rw [p2, c1, d2]
      · constructor
        · rw [p3, c2, d3]
        · rw [p1, c6, d1]
    · constructor
      · rw [k2, p2, c1, d2]
      · constructor
        · rw [k3, p3, c2, d3]
        · rw [k1, p1, c6, d1]

lemma foldl_loopBody_pres (inp : FrameInput) (l : List Nat) (s : EditorState) :
    (l.foldl (loopBody inp) s).zoom = s.zoom ∧
    (l.foldl (loopBody inp) s).image_cache = s.image_cache ∧
    (l.foldl (loopBody inp) s).objects.length = s.objects.length := by
  induction l generalizing s with
  | nil => exact ⟨rfl, rfl, rfl⟩
  | cons j t ih =>
    obtain ⟨h1, h2, h3⟩ := loopBody_pres inp s j
    obtain ⟨g1, g2, g3⟩ := ih (loopBody inp s j)
    exact ⟨g1.trans h1, g2.trans h2, g3.trans h3⟩

lemma loopBody_skip (inp : FrameInput) (s : EditorState) (i : Nat)
    (obj : GameObject) (hobj : s.objects[i]? = some obj)
    (hst : inp.dragStarted = false) (hrel : inp.dragReleased = false)
    (hsec : inp.secondaryDown = false)
    (hW : inp.keyW = false) (hS : inp.keyS = false)
    (hA : inp.keyA = false) (hD : inp.keyD = false)
    (hpan : s.pan_start = none)
    (hskip : ¬ s.dragging = some i ∨ inp.pointerPos = none) :
    loopBody inp s i = s := by
  have h1 : dragStartStep inp i obj s = s := dragStartStep_noStart _ _ _ _ hst
  have h2 : dragContinueStep inp i obj s.zoom s = s := by
    rcases hskip with h | h
    · exact dragContinueStep_ne _ _ _ _ _ h
    · exact dragContinueStep_noPtr _ _ _ _ _ h hrel
  have h3 : panStep inp s = s :=
    (panStep_noSec _ _ hsec).trans (pan_none_eq s hpan)
  simp only [loopBody, hobj, h1, h2, h3]
  split
  · rfl
  · exact keysStep_none _ _ hW hS hA hD

lemma loopBody_move (inp : FrameInput) (s : EditorState) (i : Nat)
    (obj : GameObject) (p a : ℚ × ℚ) (hobj : s.objects[i]? = some obj)
    (hst : inp.dragStarted = false) (hrel : inp.dragReleased = false)
    (hsec : inp.secondaryDown = false)
    (hW : inp.keyW = false) (hS : inp.keyS = false)
    (hA : inp.keyA = false) (hD : inp.keyD = false)
    (hpan : s.pan_start = none)
    (hd : s.dragging = some i) (hp : inp.pointerPos = some p)
    (ha : s.drag_start = some a) :
    loopBody inp s i =
      { s with objects := s.objects.set i (movedObj obj a p s.zoom),
               drag_start := some p } := by
  have h1 : dragStartStep inp i obj s = s := dragStartStep_noStart _ _ _ _ hst
  have h2 : dragContinueStep inp i obj s.zoom s =
      { s with objects := s.objects.set i (movedObj obj a p s.zoom),
               drag_start := some p } :=
    dragContinueStep_move _ _ _ _ _ _ _ hd hp ha hrel
  have h3 : panStep inp
      { s with objects := s.objects.set i (movedObj obj a p s.zoom),
               drag_start := some p } =
      { s with objects := s.objects.set i (movedObj obj a p s.zoom),
               drag_start := some p } := by
    refine (panStep_noSec _ _ hsec).trans (pan_none_eq _ ?_)
    simpa using hpan
  simp only [loopBody, hobj, h1, h2, h3]
  split
  · rfl
  · exact keysStep_none _ _ hW hS hA hD

lemma loopBody_hit (inp : FrameInput) (s : EditorState) (i : Nat)
    (obj : GameObject) (p : ℚ × ℚ) (hobj : s.objects[i]? = some obj)
    (hst : inp.dragStarted = true) (hp : inp.pointerPos = some p)
    (hhit : objHit inp.rectLeftTop s.view_offset s.zoom obj p = true)
    (hrel : inp.dragReleased = false) (hsec : inp.secondaryDown = false)
    (hW : inp.keyW = false) (hS : inp.keyS = false)
    (hA : inp.keyA = false) (hD : inp.keyD = false)
    (hpan : s.pan_start = none) :
    loopBody inp s i = hitState s i p := by
  have h1 : dragStartStep inp i obj s = hitState s i p := by
    rw [dragStartStep_hit inp i obj s p hst hp hhit]
    rfl
  have h2 : dragContinueStep inp i obj s.zoom (hitState s i p) =
      hitState s i p := by
    have hmove := dragContinueStep_move inp i obj s.zoom (hitState s i p) p p
      (by simp [hitState]) hp (by simp [hitState]) hrel
    rw [hmove, movedObj_self]
    have : (hitState s i p).objects.set i obj = (hitState s i p).objects := by
      apply list_set_self
      simpa [hitState] using hobj
    rw [this]
    simp [hitState]
  have h3 : panStep inp (hitState s i p) = hitState s i p := by
    refine (panStep_noSec _ _ hsec).trans (pan_none_eq _ ?_)
    simpa [hitState] using hpan
  simp only [loopBody, hobj, h1, h2, h3]
  split
  · rfl
  · exact keysStep_none _ _ hW hS hA hD

lemma loopBody_missStart (inp : FrameInput) (s : EditorState) (i : Nat)
    (obj : GameObject) (p : ℚ × ℚ) (hobj : s.objects[i]? = some obj)
    (hp : inp.pointerPos = some p)
    (hmiss : objHit inp.rectLeftTop s.view_offset s.zoom obj p = false)
    (hne : ¬ s.dragging = some i)
    (_hrel : inp.dragReleased = false) (hsec : inp.secondaryDown = false)
    (hW : inp.keyW = false) (hS : inp.keyS = false)
    (hA : inp.keyA = false) (hD : inp.keyD = false)
    (hpan : s.pan_start = none) :
    loopBody inp s i = s := by
  have h1 : dragStartStep inp i obj s = s := dragStartStep_miss _ _ _ _ _ hp hmiss
  have h2 : dragContinueStep inp i obj s.zoom s = s :=
    dragContinueStep_ne _ _ _ _ _ hne
  have h3 : panStep inp s = s :=
    (panStep_noSec _ _ hsec).trans (pan_none_eq s hpan)
  simp only [loopBody, hobj, h1, h2, h3]
  split
  · rfl
  · exact keysStep_none _ _ hW hS hA hD

lemma foldl_skip (inp : FrameInput) (l : List Nat) (s : EditorState)
    (hst : inp.dragStarted = false) (hrel : inp.dragReleased = false)
    (hsec : inp.secondaryDown = false)
    (hW : inp.keyW = false) (hS : inp.keyS = false)
    (hA : inp.keyA = false) (hD : inp.keyD = false)
    (hpan : s.pan_start = none)
    (hin : ∀ j ∈ l, j < s.objects.length)
    (hskip : ∀ j ∈ l, ¬ s.dragging = some j ∨ inp.pointerPos = none) :
    l.foldl (loopBody inp) s = s := by
  induction l with
  | nil => rfl
  | cons j t ih =>
    have hj : j < s.objects.length := hin j (List.mem_cons_self j t)
    have hstep : loopBody inp s j = s :=
      loopBody_skip inp s j s.objects[j] (List.getElem?_eq_getElem hj)
        hst hrel hsec hW hS hA hD hpan (hskip j (List.mem_cons_self j t))
    rw [List.foldl_cons, hstep]
    exact ih (fun k hk => hin k (List.mem_cons_of_mem j hk))
      (fun k hk => hskip k (List.mem_cons_of_mem j hk))

lemma foldl_dragFrame (inp : FrameInput) (s : EditorState) (i : Nat)
    (obj : GameObject) (p a : ℚ × ℚ)
    (hobj : s.objects[i]? = some obj)
    (hst : inp.dragStarted = false) (hrel : inp.dragReleased = false)
    (hsec : inp.secondaryDown = false)
    (hW : inp.keyW = false) (hS : inp.keyS = false)
    (hA : inp.keyA = false) (hD : inp.keyD = false)
    (hp : inp.pointerPos = some p)
    (hpan : s.pan_start = none) (hd : s.dragging = some i)
    (ha : s.drag_start = some a) :
    (List.range s.objects.length).foldl (loopBody inp) s =
      { s with objects := s.objects.set i (movedObj obj a p s.zoom),
               drag_start := some p } := by
  have hi : i < s.objects.length := (List.getElem?_eq_some.mp hobj).1
  have hsplit : s.objects.length = i + 1 + (s.objects.length - i - 1) := by omega
  rw [hsplit, List.range_add, List.foldl_append, List.range_succ,
      List.foldl_append]
  have hpre : (List.range i).foldl (loopBody inp) s = s := by
    refine foldl_skip inp _ s hst hrel hsec hW hS hA hD hpan ?_ ?_
    · intro j hj
      have := List.mem_range.mp hj
      omega
    · intro j hj
      have := List.mem_range.mp hj
      rw [hd]
      exact Or.inl (by simp; omega)
  rw [hpre]
  have hmid : loopBody inp s i =
      { s with objects := s.objects.set i (movedObj obj a p s.zoom),
               drag_start := some p } :=
    loopBody_move inp s i obj p a hobj hst hrel hsec hW hS hA hD hpan hd hp ha
  simp only [List.foldl_cons, List.foldl_nil, hmid]
  refine foldl_skip inp _ _ hst hrel hsec hW hS hA hD (by simpa using hpan) ?_ ?_
  · intro j hj
    obtain ⟨m, hm, rfl⟩ := List.mem_map.mp hj
    have := List.mem_range.mp hm
    simp only [List.length_set]
    omega
  · intro j hj
    obtain ⟨m, hm, rfl⟩ := List.mem_map.mp hj
    refine Or.inl ?_
    simp [hd]
    omega

lemma foldl_hitScan (inp : FrameInput) (s : EditorState) (p : ℚ × ℚ)
    (hst : inp.dragStarted = true) (hp : inp.pointerPos = some p)
    (hrel : inp.dragReleased = false) (hsec : inp.secondaryDown = false)
    (hW : inp.keyW = false) (hS : inp.keyS = false)
    (hA : inp.keyA = false) (hD : inp.keyD = false)
    (hpan : s.pan_start = none) (hd : s.dragging = none) :
    ∀ m, m ≤ s.objects.length →
      ((List.range m).foldl (loopBody inp) s = s ∧
        ∀ j, j < m → hitAt inp.rectLeftTop s p j = false) ∨
      (∃ h, h < m ∧ hitAt inp.rectLeftTop s p h = true ∧
        (∀ j, h < j → j < m → hitAt inp.rectLeftTop s p j = false) ∧
        (List.range m).foldl (loopBody inp) s = hitState s h p) := by
  intro m
  induction m with
  | zero => exact fun _ => Or.inl ⟨rfl, by omega⟩
  | succ m ih =>
    intro hm1
    have hm : m < s.objects.length := by omega
    have hobj : s.objects[m]? = some s.objects[m] := List.getElem?_eq_getElem hm
    rw [List.range_succ, List.foldl_append, List.foldl_cons, List.foldl_nil]
    rcases ih (by omega) with ⟨heq, hnone⟩ | ⟨h, hhm, hhit, hmax, heq⟩
    · rw [heq]
      cases hhitm : hitAt inp.rectLeftTop s p m with
      | true =>
        have hobjHit : objHit inp.rectLeftTop s.view_offset s.zoom
            s.objects[m] p = true := by
          simpa [hitAt, hobj] using hhitm
        refine Or.inr ⟨m, by omega, hhitm, by omega, ?_⟩
        exact loopBody_hit inp s m s.objects[m] p hobj hst hp hobjHit hrel
          hsec hW hS hA hD hpan
      | false =>
        have hobjMiss : objHit inp.rectLeftTop s.view_offset s.zoom
            s.objects[m] p = false := by
          simpa [hitAt, hobj] using hhitm
        refine Or.inl ⟨?_, ?_⟩
        · exact loopBody_missStart inp s m s.objects[m] p hobj hp hobjMiss
            (by simp [hd]) hrel hsec hW hS hA hD hpan
        · intro j hj
          rcases Nat.lt_or_ge j m with hlt | hge
          · exact hnone j hlt
          · have : j = m := by omega
            subst this
            exact hhitm
    · rw [heq]
      have hobj2 : (hitState s h p).objects[m]? = some s.objects[m] := hobj
      have hpan2 : (hitState s h p).pan_start = none := hpan
      cases hhitm : hitAt inp.rectLeftTop s p m with
      | true =>
        have hobjHit : objHit inp.rectLeftTop (hitState s h p).view_offset
            (hitState s h p).zoom s.objects[m] p = true := by
          simpa [hitAt, hitState, hobj] using hhitm
        refine Or.inr ⟨m, by omega, hhitm, by omega, ?_⟩
        rw [loopBody_hit inp (hitState s h p) m s.objects[m] p hobj2 hst hp
          hobjHit hrel hsec hW hS hA hD hpan2]
        rfl
      | false =>
        have hobjMiss : objHit inp.rectLeftTop (hitState s h p).view_offset
            (hitState s h p).zoom s.objects[m] p = false := by
          simpa [hitAt, hitState, hobj] using hhitm
        have hne : ¬ (hitState s h p).dragging = some m := by
          simp [hitState]
          omega
        refine Or.inr ⟨h, by omega, hhit, ?_, ?_⟩
        · intro j hj1 hj2
          rcases Nat.lt_or_ge j m with hlt | hge
          · exact hmax j hj1 hlt
          · have : j = m := by omega
            subst this
            exact hhitm
        · exact loopBody_missStart inp (hitState s h p) m s.objects[m] p hobj2
            hp hobjMiss hne hrel hsec hW hS hA hD hpan2

lemma loopBody_keysFrame (inp : FrameInput) (s : EditorState) (i : Nat)
    (obj : GameObject) (hobj : s.objects[i]? = some obj)
    (hst : inp.dragStarted = false) (hrel : inp.dragReleased = false)
    (hsec : inp.secondaryDown = false) (hp : inp.pointerPos = none)
    (hpan : s.pan_start = none) :
    loopBody inp s i =
      if imageShortCircuit obj s.image_cache then s else keysStep inp s := by
  have h1 : dragStartStep inp i obj s = s := dragStartStep_noStart _ _ _ _ hst
  have h2 : dragContinueStep inp i obj s.zoom s = s :=
    dragContinueStep_noPtr _ _ _ _ _ hp hrel
  have h3 : panStep inp s = s :=
    (panStep_noSec _ _ hsec).trans (pan_none_eq s hpan)
  simp only [loopBody, hobj, h1, h2, h3]

lemma foldl_keysFrame (inp : FrameInput)
    (hst : inp.dragStarted = false) (hrel : inp.dragReleased = false)
    (hsec : inp.secondaryDown = false) (hp : inp.pointerPos = none) :
    ∀ (m : Nat) (s : EditorState), m ≤ s.objects.length →
      s.pan_start = none →
      (List.range m).foldl (loopBody inp) s =
        { s with view_offset :=
            (s.view_offset.1 +
              (activeCount (s.objects.take m) s.image_cache : ℚ) * kx inp,
             s.view_offset.2 +
              (activeCount (s.objects.take m) s.image_cache : ℚ) * ky inp) } := by
  intro m
  induction m with
  | zero =>
    intro s _ _
    cases s
    simp [activeCount]
  | succ m ih =>
    intro s hm1 hpan
    have hm : m < s.objects.length := by omega
    have hobj : s.objects[m]? = some s.objects[m] := List.getElem?_eq_getElem hm
    rw [List.range_succ, List.foldl_append, List.foldl_cons, List.foldl_nil,
        ih s (by omega) hpan]
    have htake : s.objects.take (m + 1) =
        s.objects.take m ++ [s.objects[m]] := by
      rw [List.take_succ, hobj]
      rfl
    have hcnt : (activeCount (s.objects.take (m + 1)) s.image_cache : ℚ) =
        (activeCount (s.objects.take m) s.image_cache : ℚ) +
        (if imageShortCircuit s.objects[m] s.image_cache then 0 else 1) := by
      rw [htake]
      unfold activeCount
      rw [List.filter_append, List.length_append]
      cases hsc : imageShortCircuit s.objects[m] s.image_cache <;>
        simp [hsc]
    set t : EditorState :=
      { s with view_offset :=
          (s.view_offset.1 +
            (activeCount (s.objects.take m) s.image_cache : ℚ) * kx inp,
           s.view_offset.2 +
            (activeCount (s.objects.take m) s.image_cache : ℚ) * ky inp) }
      with ht
    have hobjT : t.objects[m]? = some s.objects[m] := hobj
    have hpanT : t.pan_start = none := hpan
    rw [loopBody_keysFrame inp t m s.objects[m] hobjT hst hrel hsec hp hpanT]
    have hcacheT : t.image_cache = s.image_cache := rfl
    cases hsc : imageShortCircuit s.objects[m] s.image_cache with
    | true =>
      rw [if_pos rfl, ht]
      simp only [EditorState.mk.injEq]
      refine ⟨trivial, trivial, trivial, trivial, trivial, ?_, trivial, trivial⟩
      rw [hcnt, hsc]
      simp
    | false =>
      rw [if_neg (by simp), keysStep_delta, ht]
      simp only [EditorState.mk.injEq]
      refine ⟨trivial, trivial, trivial, trivial, trivial, ?_, trivial, trivial⟩
      rw [hcnt, hsc]
      simp only [Prod.mk.injEq]
      norm_num
      constructor <;> ring

lemma hierarchyStep_pres (dec : String → Option (List GameObject))
    (fs : String → Option String) (inp : FrameInput) (s : EditorState) :
    (hierarchyStep dec fs inp s).zoom = s.zoom ∧
    (hierarchyStep dec fs inp s).dragging = s.dragging ∧
    (hierarchyStep dec fs inp s).drag_start = s.drag_start ∧
    (hierarchyStep dec fs inp s).pan_start = s.pan_start ∧
    (hierarchyStep dec fs inp s).view_offset = s.view_offset ∧
    (hierarchyStep dec fs inp s).image_cache = s.image_cache := by
  unfold hierarchyStep
  repeat' split <;> (try simp)

lemma hierarchyStep_selected (dec : String → Option (List GameObject))
    (fs : String → Option String) (inp : FrameInput) (s : EditorState) :
    (hierarchyStep dec fs inp s).selected = s.selected ∨
    (∃ j, inp.labelClicked = some j ∧
      (hierarchyStep dec fs inp s).selected = some j) := by
  rcases hl : inp.labelClicked with _ | j
  · left
    simp only [hierarchyStep, hl]
    repeat' split <;> (try simp)
  · by_cases hj : j < s.objects.length
    · right
      refine ⟨j, rfl, ?_⟩
      simp only [hierarchyStep, hl, if_pos hj]
      repeat' split <;> (try simp)
    · left
      simp only [hierarchyStep, hl, if_neg hj]
      repeat' split <;> (try simp)

lemma inspectorStep_pres (inp : FrameInput) (s s' : EditorState)
    (h : inspectorStep inp s = some s') :
    s'.selected = s.selected ∧ s'.dragging = s.dragging ∧
    s'.drag_start = s.drag_start ∧ s'.pan_start = s.pan_start ∧
    s'.view_offset = s.view_offset ∧ s'.zoom = s.zoom ∧
    s'.objects.length = s.objects.length := by
  unfold inspectorStep at h
  split at h
  · cases h
    exact ⟨rfl, rfl, rfl, rfl, rfl, rfl, rfl⟩
  · split at h
    · cases h
      simp
    · cases h

lemma centralStep_zoom (inp : FrameInput) (s : EditorState) :
    (centralStep inp s).zoom =
      if zoomDelta inp.events ≠ 0
      then clampQ (s.zoom + zoomDelta inp.events * 0.01) 0.1 5
      else s.zoom := by
  simp only [centralStep]
  rcases eq_or_ne (zoomDelta inp.events) 0 with h | h
  · rw [if_neg (by simp [h]), if_neg (by simp [h])]
    exact (foldl_loopBody_pres inp _ s).1
  · rw [if_pos h, if_pos h]
    exact (foldl_loopBody_pres inp _ _).1

lemma update_zoom (dec : String → Option (List GameObject))
    (fs : String → Option String) (inp : FrameInput) (s s' : EditorState)
    (h : update dec fs inp s = some s') :
    s'.zoom =
      if zoomDelta inp.events ≠ 0
      then clampQ (s.zoom + zoomDelta inp.events * 0.01) 0.1 5
      else s.zoom := by
  unfold update at h
  cases hins : inspectorStep inp (hierarchyStep dec fs inp s) with
  | none => rw [hins] at h; cases h
  | some s2 =>
    rw [hins] at h
    have hs' : centralStep inp s2 = s' := by
      simpa using h
    subst hs'
    rw [centralStep_zoom]
    rw [(inspectorStep_pres _ _ _ hins).2.2.2.2.2.1,
        (hierarchyStep_pres dec fs inp s).1]

lemma clampQ_mem (x lo hi : ℚ) (h : lo ≤ hi) :
    lo ≤ clampQ x lo hi ∧ clampQ x lo hi ≤ hi := by
  unfold clampQ
  split_ifs with h1 h2
  · exact ⟨le_refl lo, h⟩
  · exact ⟨h, le_refl hi⟩
  · constructor <;> linarith

lemma clampQ_id (x lo hi : ℚ) (h1 : lo ≤ x) (h2 : x ≤ hi) :
    clampQ x lo hi = x := by
  unfold clampQ
  rw [if_neg (not_lt.mpr h1), if_neg (not_lt.mpr h2)]

/-! ## C4: zoom is clamped to [0.1, 5.0] -/

/-- C4: starting from the initial zoom 1.0, the zoom of every reachable
state lies in [0.1, 5.0]; moreover in every panic-free frame the new zoom
equals the old zoom plus 0.01 times the summed vertical scroll deltas of the
frame, clamped once to [0.1, 5.0].  (When the summed delta is 0 the code
skips the update, which along reachable states coincides with clamping.) -/
theorem c4_zoom_clamped (s : EditorState) (hs : Reachable s) :
    ((0.1 : ℚ) ≤ s.zoom ∧ s.zoom ≤ 5) ∧
    ∀ dec fs inp s', update dec fs inp s = some s' →
      s'.zoom = clampQ (s.zoom + zoomDelta inp.events * 0.01) 0.1 5 := by
  have inv : ∀ t, Reachable t → (0.1 : ℚ) ≤ t.zoom ∧ t.zoom ≤ 5 := by
    intro t ht
    induction ht with
    | init => constructor <;> norm_num [initState]
    | step dec fs inp u u' hu hupd ih =>
      rw [update_zoom dec fs inp u u' hupd]
      split
      · exact clampQ_mem _ _ _ (by norm_num)
      · exact ih
  refine ⟨inv s hs, ?_⟩
  intro dec fs inp s' hupd
  rw [update_zoom dec fs inp s s' hupd]
  split
  · rfl
  · next h =>
      have h0 : zoomDelta inp.events = 0 := by simpa using h
      rw [h0, zero_mul, add_zero]
      exact (clampQ_id _ _ _ (inv s hs).1 (inv s hs).2).symm

/-- Witness for C4: the initial state's zoom is in range, and one frame with
a scroll event of vertical delta 2 yields exactly the clamped update. -/
theorem c4_witness :
    ((0.1 : ℚ) ≤ initState.zoom ∧ initState.zoom ≤ 5) ∧
    scrollOutState.zoom =
      clampQ (initState.zoom + zoomDelta scrollInp.events * 0.01) 0.1 5 :=
  ⟨(c4_zoom_clamped initState Reachable.init).1,
   (c4_zoom_clamped initState Reachable.init).2 dec0 fs0 scrollInp
     scrollOutState (by
       simp [update, hierarchyStep, inspectorStep, centralStep, scrollInp,
             noInput, initState, scrollOutState, zoomDelta])⟩

lemma dragFrame_step (dec : String → Option (List GameObject))
    (fs : String → Option String) (s : EditorState) (i : Nat)
    (obj : GameObject) (a p : ℚ × ℚ)
    (hobj : s.objects[i]? = some obj) (hsel : s.selected = some i)
    (hdrag : s.dragging = some i) (hanchor : s.drag_start = some a)
    (hpan : s.pan_start = none) :
    update dec fs (dragInp p) s =
      some { s with
               objects := s.objects.set i (movedObj (inspectObj obj) a p s.zoom),
               drag_start := some p } := by
  have hi : i < s.objects.length := (List.getElem?_eq_some.mp hobj).1
  have hh : hierarchyStep dec fs (dragInp p) s = s :=
    hierarchyStep_noop _ _ _ _ rfl rfl rfl
  have hins : inspectorStep (dragInp p) s =
      some { s with objects := s.objects.set i (inspectObj obj) } :=
    inspectorStep_some _ _ _ _ hsel hobj (fun _ => rfl)
  unfold update
  rw [hh, hins, Option.map_some']
  congr 1
  have hfold := foldl_dragFrame (dragInp p)
    { s with objects := s.objects.set i (inspectObj obj) } i
    (inspectObj obj) p a
    (by simpa using List.getElem?_set_self (a := inspectObj obj) hi)
    rfl rfl rfl rfl rfl rfl rfl rfl (by simpa using hpan)
    (by simpa using hdrag) (by simpa using hanchor)
  have hc : centralStep (dragInp p)
      { s with objects := s.objects.set i (inspectObj obj) } =
      (List.range s.objects.length).foldl (loopBody (dragInp p))
        { s with objects := s.objects.set i (inspectObj obj) } := by
    simp only [centralStep]
    rw [if_neg (by simp [dragInp, noInput, zoomDelta])]
    simp
  rw [hc]
  rw [show ({ s with objects := s.objects.set i (inspectObj obj) } :
        EditorState).objects.length = s.objects.length by simp] at hfold
  rw [hfold]
  simp [List.set_set]

/-! ## C5: drag motion is per-frame delta tracking -/

/-- C5: while object `i` is being dragged at a fixed zoom with anchor A, a
frame with the pointer at B adds `(B - A) / (10 * zoom)` to the object's
position and re-anchors at B, and the next frame with the pointer at C adds
`(C - B) / (10 * zoom)`, so the two frames total `(C - A) / (10 * zoom)` —
decomposed as (B-A) then (C-B), not (C-A) twice. -/
theorem c5_drag_delta_tracking (dec : String → Option (List GameObject))
    (fs : String → Option String) (s : EditorState) (i : Nat)
    (obj : GameObject) (A B C : ℚ × ℚ)
    (hobj : s.objects[i]? = some obj) (hsel : s.selected = some i)
    (hdrag : s.dragging = some i) (hanchor : s.drag_start = some A)
    (hpan : s.pan_start = none) :
    ∃ s₁ s₂ obj₁ obj₂,
      update dec fs (dragInp B) s = some s₁ ∧
      update dec fs (dragInp C) s₁ = some s₂ ∧
      s₁.drag_start = some B ∧ s₂.drag_start = some C ∧
      s₁.objects[i]? = some obj₁ ∧ s₂.objects[i]? = some obj₂ ∧
      obj₁.position.1 = obj.position.1 + (B.1 - A.1) / (10 * s.zoom) ∧
      obj₁.position.2 = obj.position.2 + (B.2 - A.2) / (10 * s.zoom) ∧
      obj₂.position.1 = obj₁.position.1 + (C.1 - B.1) / (10 * s.zoom) ∧
      obj₂.position.2 = obj₁.position.2 + (C.2 - B.2) / (10 * s.zoom) ∧
      obj₂.position.1 = obj.position.1 + (C.1 - A.1) / (10 * s.zoom) ∧
      obj₂.position.2 = obj.position.2 + (C.2 - A.2) / (10 * s.zoom) := by
  have hi : i < s.objects.length := (List.getElem?_eq_some.mp hobj).1
  set objB := movedObj (inspectObj obj) A B s.zoom with hobjB
  set s₁ : EditorState :=
    { s with objects := s.objects.set i objB, drag_start := some B }
    with hs₁
  have h1 : update dec fs (dragInp B) s = some s₁ :=
    dragFrame_step dec fs s i obj A B hobj hsel hdrag hanchor hpan
  have hobj1 : s₁.objects[i]? = some objB := by
    simpa [hs₁] using List.getElem?_set_self (a := objB) hi
  have hz1 : s₁.zoom = s.zoom := rfl
  set objC := movedObj (inspectObj objB) B C s.zoom with hobjC
  have h2 : update dec fs (dragInp C) s₁ = some
      { s₁ with objects := s₁.objects.set i objC, drag_start := some C } := by
    have := dragFrame_step dec fs s₁ i objB B C hobj1
      (by simpa [hs₁] using hsel) (by simpa [hs₁] using hdrag) rfl
      (by simpa [hs₁] using hpan)
    simpa [hz1] using this
  have hobj2 :
      ({ s₁ with objects := s₁.objects.set i objC, drag_start := some C } :
        EditorState).objects[i]? = some objC := by
    have hi1 : i < s₁.objects.length := by simpa [hs₁] using hi
    simpa using List.getElem?_set_self (a := objC) hi1
  refine ⟨s₁, _, objB, objC, h1, h2, rfl, rfl, hobj1, hobj2, ?_, ?_, ?_, ?_,
    ?_, ?_⟩ <;>
    simp [hobjB, hobjC, movedObj, inspectObj] <;> ring

/-- Witness for C5: dragging the single default object with anchor (0,0),
pointer at (10,20) then (30,50), at zoom 1. -/
theorem c5_witness :
    ∃ s₁ s₂ obj₁ obj₂,
      update dec0 fs0 (dragInp (10, 20)) dragState = some s₁ ∧
      update dec0 fs0 (dragInp (30, 50)) s₁ = some s₂ ∧
      s₁.drag_start = some (10, 20) ∧ s₂.drag_start = some (30, 50) ∧
      s₁.objects[0]? = some obj₁ ∧ s₂.objects[0]? = some obj₂ ∧
      obj₁.position.1 = obj0.position.1 + ((10 : ℚ) - 0) / (10 * dragState.zoom) ∧
      obj₁.position.2 = obj0.position.2 + ((20 : ℚ) - 0) / (10 * dragState.zoom) ∧
      obj₂.position.1 = obj₁.position.1 + ((30 : ℚ) - 10) / (10 * dragState.zoom) ∧
      obj₂.position.2 = obj₁.position.2 + ((50 : ℚ) - 20) / (10 * dragState.zoom) ∧
      obj₂.position.1 = obj0.position.1 + ((30 : ℚ) - 0) / (10 * dragState.zoom) ∧
      obj₂.position.2 = obj0.position.2 + ((50 : ℚ) - 0) / (10 * dragState.zoom) :=
  c5_drag_delta_tracking dec0 fs0 dragState 0 obj0 (0, 0) (10, 20) (30, 50)
    rfl rfl rfl rfl rfl

/-! ## C6: hit-test tie-break takes the last (greatest-index) hit -/

/-- C6: on a drag-start frame with no drag under way, if the unrotated
bounding box of object `j` contains the pointer and no object with a greater
index contains it, then `j` — the greatest index among the hit objects —
becomes both the dragging and the selected object (the loop does not break
early, so later hits overwrite earlier ones). -/
theorem c6_hit_test_last_wins (dec : String → Option (List GameObject))
    (fs : String → Option String) (s : EditorState) (rect p : ℚ × ℚ) (j : Nat)
    (hsel : s.selected = none) (hdrag : s.dragging = none)
    (hpan : s.pan_start = none)
    (hj : hitAt rect s p j = true)
    (hmax : ∀ k, j < k → hitAt rect s p k = false) :
    ∃ s', update dec fs (hitInp rect p) s = some s' ∧
      s'.dragging = some j ∧ s'.selected = some j := by
  have hjlen : j < s.objects.length := by
    by_contra hlen
    rw [hitAt, List.getElem?_eq_none (by omega)] at hj
    cases hj
  have hh : hierarchyStep dec fs (hitInp rect p) s = s :=
    hierarchyStep_noop _ _ _ _ rfl rfl rfl
  have hins : inspectorStep (hitInp rect p) s = some s :=
    inspectorStep_none _ _ hsel
  have hscan := foldl_hitScan (hitInp rect p) s p rfl rfl rfl rfl rfl rfl rfl
    rfl hpan hdrag s.objects.length (le_refl _)
  have hrect : (hitInp rect p).rectLeftTop = rect := rfl
  rcases hscan with ⟨_, hnone⟩ | ⟨h, _, hhit, hmax2, heq⟩
  · have := hnone j hjlen
    rw [hrect, hj] at this
    cases this
  · rw [hrect] at hhit hmax2
    have hhj : h = j := by
      rcases lt_trichotomy h j with h1 | h1 | h1
      · have := hmax2 j h1 hjlen
        rw [hj] at this
        cases this
      · exact h1
      · have := hmax h h1
        rw [hhit] at this
        cases this
    subst hhj
    refine ⟨hitState s h p, ?_, rfl, rfl⟩
    have hc : centralStep (hitInp rect p) s =
        (List.range s.objects.length).foldl (loopBody (hitInp rect p)) s := by
      simp only [centralStep]
      rw [if_neg (by simp [hitInp, noInput, zoomDelta])]
    unfold update
    rw [hh, hins, Option.map_some', hc, heq]

/-- Witness for C6: two overlapping default objects both contain the pointer
(0,0); index 1, the last in storage order, ends up dragged and selected. -/
theorem c6_witness :
    ∃ s', update dec0 fs0 (hitInp (0, 0) (0, 0)) twoState = some s' ∧
      s'.dragging = some 1 ∧ s'.selected = some 1 :=
  c6_hit_test_last_wins dec0 fs0 twoState (0, 0) (0, 0) 1 rfl rfl rfl
    (by
      have hobj : twoState.objects[1]? = some obj1 := rfl
      simp only [hitAt, hobj]
      norm_num [objHit, objCenter, twoState, initState, obj1])
    (by
      intro k hk
      have hlen : twoState.objects.length = 2 := rfl
      rw [hitAt, List.getElem?_eq_none (by omega)])

/-! ## C7: key-driven pan runs once per (non-short-circuited) object -/

/-- C7 (amended): in a frame whose only input is held directional keys (no
clicks, no events, no pointer), with nothing selected and no pan anchor,
each held key's fixed 10 px step is applied once per object whose loop
iteration is not short-circuited by the image-draw `continue` — NOT once per
frame.  With zero objects the keys leave `view_offset` unchanged (the block
sits inside the per-object loop); with k active objects the offset moves by
10k px per key. -/
theorem c7_keys_pan_per_object (dec : String → Option (List GameObject))
    (fs : String → Option String) (inp : FrameInput) (s : EditorState)
    (hlab : inp.labelClicked = none) (hadd : inp.addClicked = false)
    (hload : inp.loadClicked = false) (hev : inp.events = [])
    (hst : inp.dragStarted = false) (hrel : inp.dragReleased = false)
    (hp : inp.pointerPos = none) (hsec : inp.secondaryDown = false)
    (hsel : s.selected = none) (hpan : s.pan_start = none) :
    ∃ s', update dec fs inp s = some s' ∧
      s'.view_offset.1 = s.view_offset.1 +
        (activeCount s.objects s.image_cache : ℚ) * kx inp ∧
      s'.view_offset.2 = s.view_offset.2 +
        (activeCount s.objects s.image_cache : ℚ) * ky inp ∧
      (s.objects = [] → s'.view_offset = s.view_offset) := by
  have hh : hierarchyStep dec fs inp s = s :=
    hierarchyStep_noop _ _ _ _ hlab hadd hload
  have hins : inspectorStep inp s = some s := inspectorStep_none _ _ hsel
  have hdelta : zoomDelta inp.events = 0 := by rw [hev]; rfl
  have hc : centralStep inp s =
      { s with view_offset :=
          (s.view_offset.1 + (activeCount s.objects s.image_cache : ℚ) * kx inp,
           s.view_offset.2 + (activeCount s.objects s.image_cache : ℚ) * ky inp) } := by
    simp only [centralStep]
    rw [if_neg (by simp [hdelta])]
    have hfold := foldl_keysFrame inp hst hrel hsec hp s.objects.length s
      (le_refl _) hpan
    rw [List.take_length] at hfold
    exact hfold
  refine ⟨centralStep inp s, ?_, ?_, ?_, ?_⟩
  · unfold update
    rw [hh, hins, Option.map_some']
  · rw [hc]
  · rw [hc]
  · intro h0
    rw [hc]
    simp [h0, activeCount]

/-- C7 (counterexample to the claim as stated): with TWO objects in the
scene and only the W key held, one frame moves `view_offset.y` by 20 px
(once per object), not by the claimed 10 px once per frame. -/
theorem c7_counterexample :
    ∃ s', update dec0 fs0 keyWInp twoState = some s' ∧
      s'.view_offset.2 = twoState.view_offset.2 + 20 ∧
      ¬ s'.view_offset.2 = twoState.view_offset.2 + 10 := by
  have hh : hierarchyStep dec0 fs0 keyWInp twoState = twoState :=
    hierarchyStep_noop _ _ _ _ rfl rfl rfl
  have hins : inspectorStep keyWInp twoState = some twoState :=
    inspectorStep_none _ _ rfl
  have hc : centralStep keyWInp twoState =
      { twoState with view_offset :=
          (twoState.view_offset.1 +
            (activeCount twoState.objects twoState.image_cache : ℚ) * kx keyWInp,
           twoState.view_offset.2 +
            (activeCount twoState.objects twoState.image_cache : ℚ) * ky keyWInp) } := by
    simp only [centralStep]
    rw [if_neg (by simp [keyWInp, noInput, zoomDelta])]
    have hfold := foldl_keysFrame keyWInp rfl rfl rfl rfl
      twoState.objects.length twoState (le_refl _) rfl
    rw [List.take_length] at hfold
    exact hfold
  have hcnt : activeCount twoState.objects twoState.image_cache = 2 := rfl
  refine ⟨centralStep keyWInp twoState, ?_, ?_, ?_⟩
  · unfold update
    rw [hh, hins, Option.map_some']
  · rw [hc, hcnt]
    norm_num [ky, keyWInp, noInput]
  · rw [hc, hcnt]
    norm_num [ky, keyWInp, noInput, twoState, initState]

/-- Witness for the amended C7 at the two-object scene with the W key held:
the offset moves by 10 px per active object. -/
theorem c7_witness :
    ∃ s', update dec0 fs0 keyWInp twoState = some s' ∧
      s'.view_offset.1 = twoState.view_offset.1 +
        (activeCount twoState.objects twoState.image_cache : ℚ) * kx keyWInp ∧
      s'.view_offset.2 = twoState.view_offset.2 +
        (activeCount twoState.objects twoState.image_cache : ℚ) * ky keyWInp ∧
      (twoState.objects = [] → s'.view_offset = twoState.view_offset) :=
  c7_keys_pan_per_object dec0 fs0 keyWInp twoState rfl rfl rfl rfl rfl rfl
    rfl rfl rfl rfl

/-! ## C9: the dragging object is always the selected object -/

lemma dragStartStep_inv (inp : FrameInput) (i : Nat) (obj : GameObject)
    (s : EditorState)
    (hInv : ∀ k, s.dragging = some k → s.selected = some k) :
    ∀ k, (dragStartStep inp i obj s).dragging = some k →
      (dragStartStep inp i obj s).selected = some k := by
  by_cases hst : inp.dragStarted
  · rcases hp : inp.pointerPos with _ | pos
    · simpa [dragStartStep, hst, hp] using hInv
    · by_cases hhit : objHit inp.rectLeftTop s.view_offset s.zoom obj pos = true
      · intro k hk
        simp only [dragStartStep, hst, if_true, hp, hhit] at hk ⊢
        exact hk
      · have hhit' : objHit inp.rectLeftTop s.view_offset s.zoom obj pos
            = false := by
          simpa using hhit
        simpa [dragStartStep, hst, hp, hhit'] using hInv
  · have hst' : inp.dragStarted = false := by simpa using hst
    simpa [dragStartStep, hst'] using hInv

lemma dragContinueStep_dragging (inp : FrameInput) (i : Nat)
    (obj : GameObject) (z : ℚ) (s : EditorState) :
    (dragContinueStep inp i obj z s).dragging = s.dragging ∨
    (dragContinueStep inp i obj z s).dragging = none := by
  unfold dragContinueStep
  repeat' split <;> (try simp)

lemma loopBody_inv (inp : FrameInput) (s : EditorState) (i : Nat)
    (hInv : ∀ k, s.dragging = some k → s.selected = some k) :
    ∀ k, (loopBody inp s i).dragging = some k →
      (loopBody inp s i).selected = some k := by
  cases hobj : s.objects[i]? with
  | none => simpa [loopBody, hobj] using hInv
  | some obj =>
    simp only [loopBody, hobj]
    have hInv1 := dragStartStep_inv inp i obj s hInv
    have hsel2 := (dragContinueStep_pres inp i obj s.zoom
      (dragStartStep inp i obj s)).2.2.2.2.1
    have hdrag2 := dragContinueStep_dragging inp i obj s.zoom
      (dragStartStep inp i obj s)
    have hInv2 : ∀ k, (dragContinueStep inp i obj s.zoom
        (dragStartStep inp i obj s)).dragging = some k →
        (dragContinueStep inp i obj s.zoom
          (dragStartStep inp i obj s)).selected = some k := by
      intro k hk
      rcases hdrag2 with h | h
      · rw [h] at hk
        rw [hsel2]
        exact hInv1 k hk
      · rw [h] at hk
        cases hk
    have hp3 := panStep_pres inp (dragContinueStep inp i obj s.zoom
      (dragStartStep inp i obj s))
    have hInv3 : ∀ k, (panStep inp (dragContinueStep inp i obj s.zoom
        (dragStartStep inp i obj s))).dragging = some k →
        (panStep inp (dragContinueStep inp i obj s.zoom
          (dragStartStep inp i obj s))).selected = some k := by
      intro k hk
      rw [hp3.2.2.2.1]
      exact hInv2 k (by rw [← hp3.2.2.2.2.1]; exact hk)
    split
    · exact hInv3
    · intro k hk
      have hk4 := keysStep_pres inp (panStep inp (dragContinueStep inp i obj
        s.zoom (dragStartStep inp i obj s)))
      rw [hk4.2.2.2.1]
      exact hInv3 k (by rw [← hk4.2.2.2.2.1]; exact hk)

lemma foldl_inv (inp : FrameInput) (l : List Nat) (s : EditorState)
    (hInv : ∀ k, s.dragging = some k → s.selected = some k) :
    ∀ k, (l.foldl (loopBody inp) s).dragging = some k →
      (l.foldl (loopBody inp) s).selected = some k := by
  induction l generalizing s with
  | nil => exact hInv
  | cons j t ih =>
    rw [List.foldl_cons]
    exact ih (loopBody inp s j) (loopBody_inv inp s j hInv)

lemma centralStep_inv (inp : FrameInput) (s : EditorState)
    (hInv : ∀ k, s.dragging = some k → s.selected = some k) :
    ∀ k, (centralStep inp s).dragging = some k →
      (centralStep inp s).selected = some k := by
  simp only [centralStep]
  split
  · refine foldl_inv inp _ _ ?_
    simpa using hInv
  · exact foldl_inv inp _ _ hInv

/-- C9: the editor state holds at most one selected and at most one dragging
index (both are single `Option Nat` fields), and the invariant "the dragging
object is also the selected object" is preserved by every panic-free frame.
The hypothesis `hcap` reflects egui's pointer capture: a hierarchy label can
only report a click from a press+release on the label itself, which cannot
happen while the primary button is held dragging the central panel — so a
label click can only coincide with `dragging = none`.  (On a drag-start
frame both fields are overwritten together, editor.rs lines 160-162, so a
click in that same frame also preserves the invariant.) -/
theorem c9_dragging_implies_selected (dec : String → Option (List GameObject))
    (fs : String → Option String) (inp : FrameInput) (s s' : EditorState)
    (hInv : ∀ k, s.dragging = some k → s.selected = some k)
    (hcap : s.dragging = none ∨ inp.labelClicked = none)
    (hupd : update dec fs inp s = some s') :
    ∀ k, s'.dragging = some k → s'.selected = some k := by
  have hInv1 : ∀ k, (hierarchyStep dec fs inp s).dragging = some k →
      (hierarchyStep dec fs inp s).selected = some k := by
    have hd1 := (hierarchyStep_pres dec fs inp s).2.1
    rcases hcap with hc | hc
    · intro k hk
      rw [hd1, hc] at hk
      cases hk
    · rcases hierarchyStep_selected dec fs inp s with hs1 | ⟨j, hj, _⟩
      · intro k hk
        rw [hs1]
        exact hInv k (by rw [← hd1]; exact hk)
      · rw [hc] at hj
        cases hj
  unfold update at hupd
  cases hins : inspectorStep inp (hierarchyStep dec fs inp s) with
  | none =>
    rw [hins] at hupd
    cases hupd
  | some s2 =>
    rw [hins] at hupd
    have hs' : centralStep inp s2 = s' := by simpa using hupd
    subst hs'
    refine centralStep_inv inp s2 ?_
    intro k hk
    have hpres := inspectorStep_pres _ _ _ hins
    rw [hpres.1]
    exact hInv1 k (by rw [← hpres.2.1]; exact hk)

/-- Witness for C9: a two-object scene with object 1 selected and dragging
goes through a no-input frame (which still rewrites the selected object's
`image_path` in the inspector); the invariant still holds afterwards. -/
theorem c9_witness : c9OutState.selected = some 1 := by
  have hh : hierarchyStep dec0 fs0 noInput c9State = c9State :=
    hierarchyStep_noop _ _ _ _ rfl rfl rfl
  have hins : inspectorStep noInput c9State = some c9OutState :=
    inspectorStep_some _ _ 1 obj1 rfl rfl (fun _ => rfl)
  have hupd : update dec0 fs0 noInput c9State = some c9OutState := by
    unfold update
    rw [hh, hins, Option.map_some']
    congr 1
  exact c9_dragging_implies_selected dec0 fs0 noInput c9State c9OutState
    (fun k hk => by
      have : (1 : Nat) = k := by simpa [c9State, initState] using hk
      subst this
      rfl)
    (Or.inr rfl) hupd 1 rfl

/-! ## C10: showing a selected object in the inspector mutates image_path -/

/-- C10: for an object whose `image_path` is `None`, one frame in which it
is merely selected (no other input at all) rewrites that field to
`Some("")` — selection is not read-only — while every other field of the
object (pinned by the record update) and every other object are unchanged. -/
theorem c10_selection_coerces_image_path
    (dec : String → Option (List GameObject))
    (fs : String → Option String) (s : EditorState) (i : Nat)
    (obj : GameObject)
    (hobj : s.objects[i]? = some obj) (hnone : obj.image_path = none)
    (hsel : s.selected = some i) (hpan : s.pan_start = none) :
    update dec fs noInput s =
      some { s with objects :=
        s.objects.set i { obj with image_path := some "" } } ∧
    (∀ j, ¬ j = i →
      (s.objects.set i { obj with image_path := some "" })[j]? =
        s.objects[j]?) ∧
    ¬ ({ obj with image_path := some "" } : GameObject) = obj := by
  have hi : i < s.objects.length := (List.getElem?_eq_some.mp hobj).1
  have hh : hierarchyStep dec fs noInput s = s :=
    hierarchyStep_noop _ _ _ _ rfl rfl rfl
  have hinsp : inspectObj obj = { obj with image_path := some "" } := by
    simp [inspectObj, hnone]
  have hins : inspectorStep noInput s =
      some { s with objects :=
        s.objects.set i { obj with image_path := some "" } } := by
    rw [← hinsp]
    exact inspectorStep_some _ _ _ _ hsel hobj (fun _ => rfl)
  refine ⟨?_, ?_, ?_⟩
  · unfold update
    rw [hh, hins, Option.map_some']
    congr 1
    simp only [centralStep]
    rw [if_neg (by simp [noInput, zoomDelta])]
    refine foldl_skip noInput _ _ rfl rfl rfl rfl rfl rfl rfl
      (by simpa using hpan) ?_ ?_
    · intro j hj
      simpa using List.mem_range.mp hj
    · intro j _
      exact Or.inr rfl
  · intro j hj
    exact List.getElem?_set_ne (fun h => hj h.symm)
  · intro h
    have := congrArg GameObject.image_path h
    rw [hnone] at this
    cases this

/-- Witness for C10 at the one-object scene with object 0 selected. -/
theorem c10_witness :
    update dec0 fs0 noInput selState =
      some { selState with objects :=
        selState.objects.set 0 { obj0 with image_path := some "" } } ∧
    (selState.objects.set 0 { obj0 with image_path := some "" })[1]? =
      selState.objects[1]? ∧
    ¬ ({ obj0 with image_path := some "" } : GameObject) = obj0 :=
  ⟨(c10_selection_coerces_image_path dec0 fs0 selState 0 obj0 rfl rfl rfl
      rfl).1,
   (c10_selection_coerces_image_path dec0 fs0 selState 0 obj0 rfl rfl rfl
      rfl).2.1 1 (by omega),
   (c10_selection_coerces_image_path dec0 fs0 selState 0 obj0 rfl rfl rfl
      rfl).2.2⟩

end StarEditor
